import Mathlib

/-!
Verification of the `OceanSolution` metric methods from
`src/model/ocean_solution.py`.

The module works over pandas `Series` objects indexed by integer years.  We
embed a series as an association list of `(year, value)` pairs in index order
(`TS`).  Values are rationals.  The adoption-scenario collaborator
(`NewUnitAdoption`, not part of this repository's sources) is modelled as an
opaque record of series-valued accessors (`Scenario`), exactly the accessor
surface `ocean_solution.py` consumes.

Notes on pandas fidelity:
  * `s.loc[a:b]` on a sorted integer index keeps the rows with `a ≤ year ≤ b`
    (both ends inclusive) — `tsSlice`.
  * `s.cumsum()` is the positional running sum keeping the index — `tsCumsum`.
  * `a.add(b, fill_value = 0)` aligns on the sorted union of the two indexes
    and treats a value missing on one side as `0` — `tsAddFill`.
  * `a.add(b).fillna(0)` also aligns on the sorted union, but a year present
    on only one side yields `NaN` from the addition, which `fillna` then
    replaces with `0` — `tsAddThenFillZero`.
  * `a - b` aligns on the union and yields `NaN` at a year present on only one
    side.  We keep only the defined rows (`tsSub`); theorems whose pipelines
    depend on row positions therefore assume the two operands have equal key
    sets, which is the situation the data model guarantees (both providers
    cover the same contiguous year range).
  * `series.argmax()` / `max(series)` on an empty series raise; partial
    results are `Option`-valued.
-/

/-- A pandas `Series` with integer (year) index: association list in index
order. -/
abbrev TS := List (Int × ℚ)

/-- The index of a series, in order. -/
def tsKeys (s : TS) : List Int := s.map Prod.fst

/-- `s.loc[y]` as a partial lookup: the value at the first occurrence of year
`y`, `none` when `y` is not in the index (pandas raises `KeyError`). -/
def tsLookup : TS → Int → Option ℚ
  | [], _ => none
  | (y, v) :: rest, z => if y = z then some v else tsLookup rest z

/-- `s.loc[y]` with default `0` (used only under hypotheses that make the
lookup succeed, or where a missing year contributes the additive unit). -/
def tsGetD (s : TS) (y : Int) : ℚ := (tsLookup s y).getD 0

/-- `s.loc[a:b]`: label slicing on a sorted integer index, both ends
inclusive. -/
def tsSlice (s : TS) (a b : Int) : TS :=
  s.filter (fun p => decide (a ≤ p.1) && decide (p.1 ≤ b))

/-- `s.sum()`. -/
def tsSum (s : TS) : ℚ := (s.map Prod.snd).sum

/-- `s * c`: elementwise multiplication by a scalar. -/
def tsScale (c : ℚ) (s : TS) : TS := s.map (fun p => (p.1, c * p.2))

/-- `-s`: elementwise negation. -/
def tsNeg (s : TS) : TS := s.map (fun p => (p.1, -p.2))

/-- `s.cumsum()` starting from an accumulator. -/
def tsCumsumFrom : ℚ → TS → TS
  | _, [] => []
  | acc, p :: rest => (p.1, acc + p.2) :: tsCumsumFrom (acc + p.2) rest

/-- `s.cumsum()`: positional running sum, index kept. -/
def tsCumsum (s : TS) : TS := tsCumsumFrom 0 s

/-- Maximum of a list of rationals; `none` on the empty list. -/
def listMax : List ℚ → Option ℚ
  | [] => none
  | v :: l =>
    some (match listMax l with
          | none => v
          | some m => max v m)

/-- Maximum of the values of a series; `none` on the empty series (pandas
`argmax` and Python `max` both raise there).  `s.iloc[s.argmax()]` is exactly
this maximum value. -/
def tsMaxVal (s : TS) : Option ℚ := listMax (s.map Prod.snd)

/-- Insert a key into a sorted key list, keeping it sorted and without
duplicating a key already present. -/
def insertKey (y : Int) : List Int → List Int
  | [] => [y]
  | x :: xs =>
    if y < x then y :: x :: xs
    else if y = x then x :: xs
    else x :: insertKey y xs

/-- Union of two key lists: the index of a pandas alignment result (a key
present in both operands appears once; for sorted operands — the data-model
invariant — the result is the sorted union). -/
def mergeKeys (xs ys : List Int) : List Int :=
  ys.foldl (fun acc y => insertKey y acc) xs

/-- `a.add(b, fill_value = 0.0)`: align on the sorted union of the indexes,
a value missing on one side contributes `0`. -/
def tsAddFill (a b : TS) : TS :=
  (mergeKeys (tsKeys a) (tsKeys b)).map
    (fun y => (y, tsGetD a y + tsGetD b y))

/-- `a.add(b).fillna(0.0)`: align on the sorted union of the indexes; a year
present on only one side yields `NaN` from the addition, which `fillna`
replaces with `0`. -/
def tsAddThenFillZero (a b : TS) : TS :=
  (mergeKeys (tsKeys a) (tsKeys b)).map
    (fun y => (y,
      match tsLookup a y, tsLookup b y with
      | some va, some vb => va + vb
      | _, _ => 0))

/-- `a - b` restricted to the rows defined on both sides (pandas yields `NaN`
at a year present on only one side; we keep only the defined rows, and
theorems that depend on row positions assume equal key sets). -/
def tsSub (a : TS) (b : TS) : TS :=
  a.filterMap (fun p => (tsLookup b p.1).map (fun w => (p.1, p.2 - w)))

/-- `series.multiply(discount_factors, axis='index')` where
`discount_factors = [(1/(1+r))**(row+1) for row in range(num_rows)]`:
row `i` (0-based position, not a year) is multiplied by
`(1/(1+r))^(i+1)`. -/
def tsDiscountPositional (r : ℚ) (s : TS) : TS :=
  s.enum.map (fun ip => (ip.2.1, ip.2.2 * (1 / (1 + r)) ^ (ip.1 + 1)))

/-- `s.loc[years]` for an explicit list of labels: every label must be
present, otherwise pandas raises `KeyError`. -/
def tsLocList (s : TS) (ys : List Int) : Option TS :=
  ys.mapM (fun y => (tsLookup s y).map (fun v => (y, v)))

/-- `list(range(a, b + 1))`: the inclusive integer year range. -/
def yearRange (a b : Int) : List Int :=
  (List.range (b + 1 - a).toNat).map (fun (i : ℕ) => a + (i : Int))

/-- The keys of a series are strictly increasing (the sorted-index invariant
of the data model). -/
def keysSorted (s : TS) : Prop := List.Pairwise (fun a b => a < b) (tsKeys s)

/-- The series has a row for every year of the inclusive range `[a, b]`
(the data-model invariant that a provider's series covers its documented
year range). -/
def coversRange (s : TS) (a b : Int) : Prop :=
  ∀ y ∈ yearRange a b, y ∈ tsKeys s

instance (s : TS) : Decidable (keysSorted s) := by
  unfold keysSorted; infer_instance

instance (s : TS) (a b : Int) : Decidable (coversRange s a b) := by
  unfold coversRange; infer_instance

/-- The adoption-scenario collaborator (`NewUnitAdoption`): the accessor
surface `ocean_solution.py` consumes, as opaque series data.  The carbon
sequestration accessor is callable with two or with four parameters; the two
forms are separate fields. -/
structure Scenario where
  get_units_adopted : TS
  get_tam_units : TS
  get_annual_world_first_cost : TS
  get_operating_cost : Int → TS
  get_lifetime_operating_savings : Int → TS
  get_lifetime_cashflow_npv : Int → ℚ → TS
  get_net_profit_margin : Int → TS
  get_carbon_sequestration2 : ℚ → ℚ → TS
  get_carbon_sequestration4 : ℚ → ℚ → ℚ → Bool → TS
  get_change_in_ppm_equiv_series : TS
  total_at_risk_area : TS

/-- The state of a configured `OceanSolution`: the scenario-level scalars and
the two adoption-scenario handles. -/
structure OceanCtx where
  start_year : Int
  base_year : Int
  end_year : Int
  npv_discount_rate : ℚ
  disturbance_rate : ℚ
  growth_rate_of_ocean_degradation : ℚ
  sequestration_rate_all_ocean : ℚ
  delay_impact_of_protection_by_one_year : Bool
  delay_regrowth_of_degraded_land_by_one_year : Bool
  pds_scenario : Scenario
  ref_scenario : Scenario

/-- `get_adoption_unit_increase_pds_vs_ref_final_year`. -/
def get_adoption_unit_increase_pds_vs_ref_final_year (c : OceanCtx) : Option ℚ :=
  let pds_series := c.pds_scenario.get_units_adopted
  let ref_series := c.ref_scenario.get_units_adopted
  let net_series := tsSub pds_series ref_series
  tsLookup net_series c.end_year

/-- `get_adoption_unit_increase_pds_final_year`. -/
def get_adoption_unit_increase_pds_final_year (c : OceanCtx) : Option ℚ :=
  tsLookup c.pds_scenario.get_units_adopted c.end_year

/-- `get_global_percent_adoption_base_year`: evaluates at `base_year + 1`. -/
def get_global_percent_adoption_base_year (c : OceanCtx) : Option ℚ := do
  let pds_base_year ← tsLookup c.pds_scenario.get_units_adopted (c.base_year + 1)
  let tam_base_year ← tsLookup c.pds_scenario.get_tam_units (c.base_year + 1)
  return pds_base_year / tam_base_year

/-- `get_percent_adoption_start_year`. -/
def get_percent_adoption_start_year (c : OceanCtx) : Option ℚ := do
  let pds_start_year ← tsLookup c.pds_scenario.get_units_adopted c.start_year
  let tam_start_year ← tsLookup c.pds_scenario.get_tam_units c.start_year
  return pds_start_year / tam_start_year

/-- `get_percent_adoption_end_year`. -/
def get_percent_adoption_end_year (c : OceanCtx) : Option ℚ := do
  let pds_end_year ← tsLookup c.pds_scenario.get_units_adopted c.end_year
  let tam_end_year ← tsLookup c.pds_scenario.get_tam_units c.end_year
  return pds_end_year / tam_end_year

/-- `get_marginal_first_cost`:
`(pds_awfc - ref_awfc).loc[years].sum() / 1000` for
`years = range(base_year, end_year + 1)`. -/
def get_marginal_first_cost (c : OceanCtx) : Option ℚ :=
  let pds_awfc := c.pds_scenario.get_annual_world_first_cost
  let ref_awfc := c.ref_scenario.get_annual_world_first_cost
  let years := yearRange c.base_year c.end_year
  (tsLocList (tsSub pds_awfc ref_awfc) years).map (fun t => tsSum t / 1000)

/-- `get_cumulative_first_cost_pds`. -/
def get_cumulative_first_cost_pds (c : OceanCtx) : Option ℚ :=
  let years := yearRange c.base_year c.end_year
  let pds_fc := c.pds_scenario.get_annual_world_first_cost
  (tsLocList pds_fc years).map (fun t => tsSum t / 1000)

/-- `get_operating_cost`: for each scenario, scale the operating-cost series
by `(1 + disturbance_rate)`, take the cumulative sum, subtract the value at
`start_year` from the value at `end_year`; return
`(ref_result - pds_result) / 1000`. -/
def get_operating_cost (c : OceanCtx) : Option ℚ := do
  let pds_series := tsScale (1 + c.disturbance_rate)
    (c.pds_scenario.get_operating_cost c.end_year)
  let pds_end ← tsLookup (tsCumsum pds_series) c.end_year
  let pds_start ← tsLookup (tsCumsum pds_series) c.start_year
  let pds_result := pds_end - pds_start
  let ref_series := tsScale (1 + c.disturbance_rate)
    (c.ref_scenario.get_operating_cost c.end_year)
  let ref_end ← tsLookup (tsCumsum ref_series) c.end_year
  let ref_start ← tsLookup (tsCumsum ref_series) c.start_year
  let ref_result := ref_end - ref_start
  return (ref_result - pds_result) / 1000

/-- `get_lifetime_operating_savings`:
`-(pds.get_lifetime_operating_savings(end_year) * (1 + disturbance_rate)).sum() / 1000`. -/
def get_lifetime_operating_savings (c : OceanCtx) : ℚ :=
  let pds_series := tsScale (1 + c.disturbance_rate)
    (c.pds_scenario.get_lifetime_operating_savings c.end_year)
  let result := -tsSum pds_series
  result / 1000

/-- `get_lifetime_cashflow_npv_single`. -/
def get_lifetime_cashflow_npv_single (c : OceanCtx) (purchase_year : Int) : ℚ :=
  let pds_series := tsScale (-1)
    (c.pds_scenario.get_lifetime_cashflow_npv purchase_year c.npv_discount_rate)
  tsSum pds_series / 1000

/-- `get_payback_period_soln_only`: negate the lifetime-cashflow-NPV series at
the purchase year (discount rate `npv_discount_rate`), cumulative-sum it, and
return the maximum value attained (`cumulative_sum.iloc[cumulative_sum.argmax()]`). -/
def get_payback_period_soln_only (c : OceanCtx) (purchase_year : Int) : Option ℚ :=
  let pds_series := tsScale (-1)
    (c.pds_scenario.get_lifetime_cashflow_npv purchase_year c.npv_discount_rate)
  tsMaxVal (tsCumsum pds_series)

/-- `get_payback_period_soln_only_npv`: identical pipeline to the plain
soln-only variant (same series, same discount rate). -/
def get_payback_period_soln_only_npv (c : OceanCtx) (purchase_year : Int) : Option ℚ :=
  let pds_series := tsScale (-1)
    (c.pds_scenario.get_lifetime_cashflow_npv purchase_year c.npv_discount_rate)
  tsMaxVal (tsCumsum pds_series)

/-- `get_payback_period_soln_to_conv`: same pipeline with discount rate `0.0`
(the "conventional" series is a zero series for this domain), and the negation
written `-pds_series`. -/
def get_payback_period_soln_to_conv (c : OceanCtx) (purchase_year : Int) : Option ℚ :=
  let pds_series := c.pds_scenario.get_lifetime_cashflow_npv purchase_year 0
  let net_series := tsNeg pds_series
  tsMaxVal (tsCumsum net_series)

/-- `get_payback_period_soln_to_conv_npv`: same pipeline with discount rate
`npv_discount_rate`. -/
def get_payback_period_soln_to_conv_npv (c : OceanCtx) (purchase_year : Int) : Option ℚ :=
  let pds_series := c.pds_scenario.get_lifetime_cashflow_npv purchase_year c.npv_discount_rate
  let net_series := tsNeg pds_series
  tsMaxVal (tsCumsum net_series)

/-- The net cash flow built by `get_lifetime_cashflow_npv_all`:
`(ref_fc - pds_fc).loc[start_year-1 : end_year]` added (fill value `0`) to
`-pds.get_lifetime_operating_savings(end_year) * (1 + disturbance_rate)`. -/
def npvAllNetCashFlow (c : OceanCtx) : TS :=
  let ref_fc := c.ref_scenario.get_annual_world_first_cost
  let pds_fc := c.pds_scenario.get_annual_world_first_cost
  let net_fc := tsSub ref_fc pds_fc
  let fc_clipped := tsSlice net_fc (c.start_year - 1) c.end_year
  let op_cost := tsScale (-(1 + c.disturbance_rate))
    (c.pds_scenario.get_lifetime_operating_savings c.end_year)
  tsAddFill fc_clipped op_cost

/-- `get_lifetime_cashflow_npv_all`: positional discounting of the net cash
flow, summed, divided by 1000. -/
def get_lifetime_cashflow_npv_all (c : OceanCtx) : ℚ :=
  let net_cash_flow := npvAllNetCashFlow c
  let npv := tsDiscountPositional c.npv_discount_rate net_cash_flow
  tsSum npv / 1000

/-- `get_total_co2_seq`: net two-parameter carbon sequestration (PDS minus
REF), summed over `[start_year + 1, end_year]`, divided by 1000. -/
def get_total_co2_seq (c : OceanCtx) : ℚ :=
  let pds_sequestration := c.pds_scenario.get_carbon_sequestration2
    c.sequestration_rate_all_ocean c.disturbance_rate
  let ref_sequestration := c.ref_scenario.get_carbon_sequestration2
    c.sequestration_rate_all_ocean c.disturbance_rate
  let net_sequestration := tsSub pds_sequestration ref_sequestration
  tsSum (tsSlice net_sequestration (c.start_year + 1) c.end_year) / 1000

/-- The net cash flow built by `get_abatement_cost`:
`(ref_fc - pds_fc).loc[start_year-1 : end_year]` added to
`(ref_op_cost - pds_op_cost) * (1 + disturbance_rate)` with the `NaN` rows of
the addition filled with `0` (`.add(...).fillna(0.0)`). -/
def abatementNetCashFlow (c : OceanCtx) : TS :=
  let pds_fc := c.pds_scenario.get_annual_world_first_cost
  let ref_fc := c.ref_scenario.get_annual_world_first_cost
  let net_fc := tsSub ref_fc pds_fc
  let fc_clipped := tsSlice net_fc (c.start_year - 1) c.end_year
  let pds_op_cost := c.pds_scenario.get_lifetime_operating_savings c.end_year
  let ref_op_cost := c.ref_scenario.get_lifetime_operating_savings c.end_year
  let net_op_cost := tsScale (1 + c.disturbance_rate) (tsSub ref_op_cost pds_op_cost)
  tsAddThenFillZero fc_clipped net_op_cost

/-- `get_abatement_cost`: positionally discount the abatement net cash flow,
sum over `[start_year, end_year]`, negate, divide by `get_total_co2_seq`, then
by 1000. -/
def get_abatement_cost (c : OceanCtx) : ℚ :=
  let total_co2_reduction := get_total_co2_seq c
  let net_cash_flow := abatementNetCashFlow c
  let npv := tsDiscountPositional c.npv_discount_rate net_cash_flow
  let npv_summed := tsSum (tsSlice npv c.start_year c.end_year)
  let result := -1 * npv_summed / total_co2_reduction
  result / 1000

/-- `get_net_profit_margin`: scale the margin series by
`(1 - disturbance_rate)`, cumulative-sum, value at `end_year` minus value at
`start_year`, divided by 1000. -/
def get_net_profit_margin (c : OceanCtx) : Option ℚ := do
  let margin_series := tsScale (1 - c.disturbance_rate)
    (c.pds_scenario.get_net_profit_margin c.end_year)
  let margin_series_cum := tsCumsum margin_series
  let end_year_val ← tsLookup margin_series_cum c.end_year
  let start_year_val ← tsLookup margin_series_cum c.start_year
  return (end_year_val - start_year_val) / 1000

/-- `get_lifetime_profit_margin`. -/
def get_lifetime_profit_margin (c : OceanCtx) : ℚ :=
  let margin_series := tsScale (1 - c.disturbance_rate)
    (c.pds_scenario.get_net_profit_margin c.end_year)
  tsSum margin_series / 1000

/-- `get_total_emissions_reduction`: the Python body reads
`self.pds_scenario.total_at_risk_area` into a local and then executes a bare
`return`, so every call returns `None` — modelled as `none` (no exception
path exists in this method, so `none` here is the returned `None`, not a
raised error). -/
def get_total_emissions_reduction (c : OceanCtx) : Option ℚ :=
  let _series := c.pds_scenario.total_at_risk_area
  none

/-- `get_change_in_ppm_equiv`: net PPM-equivalent series evaluated at
`end_year`, or `end_year - delay_period` when `delay_period > 0`. -/
def get_change_in_ppm_equiv (c : OceanCtx) (delay_period : Int) : Option ℚ :=
  let pds_sequestration := c.pds_scenario.get_change_in_ppm_equiv_series
  let ref_sequestration := c.ref_scenario.get_change_in_ppm_equiv_series
  let net_sequestration := tsSub pds_sequestration ref_sequestration
  let e := if delay_period > 0 then c.end_year - delay_period else c.end_year
  tsLookup net_sequestration e

/-- `get_change_in_ppm_equiv_final_year`. -/
def get_change_in_ppm_equiv_final_year (c : OceanCtx) : Option ℚ := do
  let pds_sequestration := c.pds_scenario.get_change_in_ppm_equiv_series
  let ref_sequestration := c.ref_scenario.get_change_in_ppm_equiv_series
  let net_sequestration := tsSub pds_sequestration ref_sequestration
  let at_end ← tsLookup net_sequestration c.end_year
  let at_before ← tsLookup net_sequestration (c.end_year - 1)
  return at_end - at_before

/-- The net four-parameter carbon-sequestration series used by
`get_max_annual_co2_sequestered` and `get_co2_sequestered_final_year`. -/
def netSequestration4 (c : OceanCtx) : TS :=
  let pds_sequestration := c.pds_scenario.get_carbon_sequestration4
    c.sequestration_rate_all_ocean c.disturbance_rate
    c.growth_rate_of_ocean_degradation c.delay_impact_of_protection_by_one_year
  let ref_sequestration := c.ref_scenario.get_carbon_sequestration4
    c.sequestration_rate_all_ocean c.disturbance_rate
    c.growth_rate_of_ocean_degradation c.delay_impact_of_protection_by_one_year
  tsSub pds_sequestration ref_sequestration

/-- `get_max_annual_co2_sequestered`: `max(net.loc[start:end]) / 1000`, with
both `start` and `end` decreased by 1 when
`delay_regrowth_of_degraded_land_by_one_year` is set. -/
def get_max_annual_co2_sequestered (c : OceanCtx) : Option ℚ :=
  let net_sequestration := netSequestration4 c
  let startYr := if c.delay_regrowth_of_degraded_land_by_one_year
    then c.start_year - 1 else c.start_year
  let endYr := if c.delay_regrowth_of_degraded_land_by_one_year
    then c.end_year - 1 else c.end_year
  (tsMaxVal (tsSlice net_sequestration startYr endYr)).map (fun m => m / 1000)

/-- `get_co2_sequestered_final_year`: `net.loc[end] / 1000`, with `end`
decreased by 1 when `delay_regrowth_of_degraded_land_by_one_year` is set. -/
def get_co2_sequestered_final_year (c : OceanCtx) : Option ℚ :=
  let net_sequestration := netSequestration4 c
  let endYr := if c.delay_regrowth_of_degraded_land_by_one_year
    then c.end_year - 1 else c.end_year
  (tsLookup net_sequestration endYr).map (fun m => m / 1000)

/-! ### Basic lemmas about the series operations -/

theorem tsKeys_cons (p : Int × ℚ) (s : TS) : tsKeys (p :: s) = p.1 :: tsKeys s := rfl

theorem tsLookup_cons (k : Int) (v : ℚ) (s : TS) (z : Int) :
    tsLookup ((k, v) :: s) z = if k = z then some v else tsLookup s z := rfl

theorem tsSum_nil : tsSum ([] : TS) = 0 := rfl

theorem tsSum_cons (p : Int × ℚ) (s : TS) : tsSum (p :: s) = p.2 + tsSum s := by
  simp [tsSum]

theorem tsLookup_eq_none {s : TS} {y : Int} (h : y ∉ tsKeys s) : tsLookup s y = none := by
  induction s with
  | nil => rfl
  | cons p rest ih =>
    obtain ⟨k, v⟩ := p
    rw [tsKeys_cons, List.mem_cons] at h
    push_neg at h
    rw [tsLookup_cons, if_neg (fun hk => h.1 hk.symm)]
    exact ih h.2

theorem tsLookup_exists_of_mem {s : TS} {y : Int} (h : y ∈ tsKeys s) :
    ∃ v, tsLookup s y = some v := by
  induction s with
  | nil => cases h
  | cons p rest ih =>
    obtain ⟨k, v⟩ := p
    rw [tsKeys_cons, List.mem_cons] at h
    by_cases hk : k = y
    · exact ⟨v, by rw [tsLookup_cons, if_pos hk]⟩
    · rcases h with h | h
      · exact absurd h.symm hk
      · obtain ⟨w, hw⟩ := ih h
        exact ⟨w, by rw [tsLookup_cons, if_neg hk, hw]⟩

theorem mem_of_tsLookup_eq_some {s : TS} {y : Int} {v : ℚ} (h : tsLookup s y = some v) :
    y ∈ tsKeys s := by
  by_contra hmem
  rw [tsLookup_eq_none hmem] at h
  cases h

theorem mem_yearRange {a b y : Int} : y ∈ yearRange a b ↔ a ≤ y ∧ y ≤ b := by
  unfold yearRange
  simp only [List.mem_map, List.mem_range]
  constructor
  · rintro ⟨i, hi, rfl⟩
    omega
  · rintro ⟨h1, h2⟩
    exact ⟨(y - a).toNat, by omega, by omega⟩

theorem nodup_yearRange (a b : Int) : (yearRange a b).Nodup := by
  unfold yearRange
  exact (List.nodup_range _).map (fun i j h => by omega)

theorem tsSlice_nil (a b : Int) : tsSlice [] a b = [] := rfl

theorem tsSlice_cons (p : Int × ℚ) (s : TS) (a b : Int) :
    tsSlice (p :: s) a b =
      if a ≤ p.1 ∧ p.1 ≤ b then p :: tsSlice s a b else tsSlice s a b := by
  by_cases h : a ≤ p.1 ∧ p.1 ≤ b
  · simp [tsSlice, List.filter_cons, h.1, h.2, h]
  · rw [if_neg h]
    rw [Classical.not_and_iff_or_not_not] at h
    rcases h with h | h
    · simp [tsSlice, List.filter_cons, h]
    · simp [tsSlice, List.filter_cons, h]

theorem tsKeys_tsScale (c : ℚ) (s : TS) : tsKeys (tsScale c s) = tsKeys s := by
  simp [tsKeys, tsScale]

theorem tsKeys_tsNeg (s : TS) : tsKeys (tsNeg s) = tsKeys s := by
  simp [tsKeys, tsNeg]

theorem tsScale_neg_one (s : TS) : tsScale (-1) s = tsNeg s := by
  unfold tsScale tsNeg
  apply List.map_congr_left
  intro p _
  rw [neg_one_mul]

theorem mem_insertKey {z y : Int} : ∀ {l : List Int}, z ∈ insertKey y l ↔ z = y ∨ z ∈ l := by
  intro l
  induction l with
  | nil => simp [insertKey]
  | cons x xs ih =>
    unfold insertKey
    by_cases h1 : y < x
    · rw [if_pos h1]
      exact List.mem_cons
    · rw [if_neg h1]
      by_cases h2 : y = x
      · rw [if_pos h2]
        subst h2
        simp only [List.mem_cons]
        tauto
      · rw [if_neg h2, List.mem_cons, ih, List.mem_cons]
        tauto

theorem mem_mergeKeys {z : Int} {xs ys : List Int} :
    z ∈ mergeKeys xs ys ↔ z ∈ xs ∨ z ∈ ys := by
  unfold mergeKeys
  induction ys generalizing xs with
  | nil => simp
  | cons y ys ih =>
    rw [List.foldl_cons, ih, mem_insertKey, List.mem_cons]
    tauto

theorem tsLookup_map_key (L : List Int) (f : Int → ℚ) (z : Int) :
    tsLookup (L.map (fun y => (y, f y))) z = if z ∈ L then some (f z) else none := by
  induction L with
  | nil => simp [tsLookup]
  | cons a L ih =>
    rw [List.map_cons, tsLookup_cons, ih]
    by_cases h : a = z
    · subst h
      simp
    · rw [if_neg h]
      by_cases hz : z ∈ L
      · rw [if_pos hz, if_pos (List.mem_cons_of_mem _ hz)]
      · rw [if_neg hz,
           if_neg (fun hc => (List.mem_cons.mp hc).elim (fun h1 => h h1.symm) hz)]

theorem tsLookup_tsAddFill (a b : TS) (z : Int) :
    tsLookup (tsAddFill a b) z =
      if z ∈ tsKeys a ∨ z ∈ tsKeys b
      then some (tsGetD a z + tsGetD b z) else none := by
  rw [tsAddFill, tsLookup_map_key]
  by_cases h : z ∈ mergeKeys (tsKeys a) (tsKeys b)
  · rw [if_pos h, if_pos (mem_mergeKeys.mp h)]
  · rw [if_neg h, if_neg (fun hc => h (mem_mergeKeys.mpr hc))]

theorem tsLookup_tsAddThenFillZero (a b : TS) (z : Int) :
    tsLookup (tsAddThenFillZero a b) z =
      if z ∈ tsKeys a ∨ z ∈ tsKeys b
      then some (match tsLookup a z, tsLookup b z with
                 | some va, some vb => va + vb
                 | _, _ => 0)
      else none := by
  rw [tsAddThenFillZero, tsLookup_map_key]
  by_cases h : z ∈ mergeKeys (tsKeys a) (tsKeys b)
  · rw [if_pos h, if_pos (mem_mergeKeys.mp h)]
  · rw [if_neg h, if_neg (fun hc => h (mem_mergeKeys.mpr hc))]

theorem tsKeys_tsSub_sublist (a b : TS) : (tsKeys (tsSub a b)).Sublist (tsKeys a) := by
  induction a with
  | nil => simp [tsSub, tsKeys]
  | cons p rest ih =>
    rw [tsKeys_cons, tsSub, List.filterMap_cons]
    cases h : tsLookup b p.1 with
    | none =>
      simp only [Option.map_none']
      exact (ih.trans (List.sublist_cons_self _ _))
    | some w =>
      simp only [Option.map_some']
      exact List.Sublist.cons₂ _ ih

theorem tsKeys_tsSub_subset {a b : TS} {y : Int} (h : y ∈ tsKeys (tsSub a b)) :
    y ∈ tsKeys a :=
  (tsKeys_tsSub_sublist a b).mem h

theorem mem_tsKeys_tsSub {a b : TS} {y : Int} :
    y ∈ tsKeys (tsSub a b) ↔ y ∈ tsKeys a ∧ y ∈ tsKeys b := by
  induction a with
  | nil => simp [tsSub, tsKeys]
  | cons p rest ih =>
    cases h : tsLookup b p.1 with
    | none =>
      have hstep : tsSub (p :: rest) b = tsSub rest b := by
        simp [tsSub, List.filterMap_cons, h]
      rw [hstep, ih, tsKeys_cons, List.mem_cons]
      constructor
      · exact fun hy => ⟨Or.inr hy.1, hy.2⟩
      · rintro ⟨hy | hy, hb⟩
        · subst hy
          obtain ⟨w, hw⟩ := tsLookup_exists_of_mem hb
          rw [h] at hw
          cases hw
        · exact ⟨hy, hb⟩
    | some w =>
      have hstep : tsSub (p :: rest) b = (p.1, p.2 - w) :: tsSub rest b := by
        simp [tsSub, List.filterMap_cons, h]
      rw [hstep, tsKeys_cons, tsKeys_cons, List.mem_cons, List.mem_cons, ih]
      constructor
      · rintro (hy | ⟨ha, hb⟩)
        · exact ⟨Or.inl hy, hy ▸ mem_of_tsLookup_eq_some h⟩
        · exact ⟨Or.inr ha, hb⟩
      · rintro ⟨hy | ha, hb⟩
        · exact Or.inl hy
        · exact Or.inr ⟨ha, hb⟩

theorem tsLookup_tsSub {a b : TS} (hnd : (tsKeys a).Nodup) (y : Int) :
    tsLookup (tsSub a b) y
      = (tsLookup a y).bind (fun va => (tsLookup b y).map (fun vb => va - vb)) := by
  induction a with
  | nil => simp [tsSub, tsLookup]
  | cons p rest ih =>
    obtain ⟨k, v⟩ := p
    rw [tsKeys_cons, List.nodup_cons] at hnd
    by_cases hk : k = y
    · subst hk
      rw [tsLookup_cons, if_pos rfl]
      cases h : tsLookup b k with
      | none =>
        have hstep : tsSub ((k, v) :: rest) b = tsSub rest b := by
          simp [tsSub, List.filterMap_cons, h]
        rw [hstep, tsLookup_eq_none (fun hc => hnd.1 (tsKeys_tsSub_subset hc))]
        rfl
      | some w =>
        have hstep : tsSub ((k, v) :: rest) b = (k, v - w) :: tsSub rest b := by
          simp [tsSub, List.filterMap_cons, h]
        rw [hstep, tsLookup_cons, if_pos rfl]
        rfl
    · rw [tsLookup_cons, if_neg hk]
      cases h : tsLookup b k with
      | none =>
        have hstep : tsSub ((k, v) :: rest) b = tsSub rest b := by
          simp [tsSub, List.filterMap_cons, h]
        rw [hstep, ih hnd.2]
      | some w =>
        have hstep : tsSub ((k, v) :: rest) b = (k, v - w) :: tsSub rest b := by
          simp [tsSub, List.filterMap_cons, h]
        rw [hstep, tsLookup_cons, if_neg hk, ih hnd.2]

theorem tsGetD_tsSub_of_mem {a b : TS} (hnd : (tsKeys a).Nodup)
    {y : Int} (hya : y ∈ tsKeys a) (hyb : y ∈ tsKeys b) :
    tsGetD (tsSub a b) y = tsGetD a y - tsGetD b y := by
  obtain ⟨va, hva⟩ := tsLookup_exists_of_mem hya
  obtain ⟨vb, hvb⟩ := tsLookup_exists_of_mem hyb
  rw [tsGetD, tsLookup_tsSub hnd, hva, hvb, tsGetD, tsGetD, hva, hvb]
  rfl

theorem sum_map_ite_of_nodup {l : List Int} (hl : l.Nodup) (k : Int) (v : ℚ)
    (f : Int → ℚ) :
    (l.map (fun y => if k = y then v else f y)).sum
      = (l.map f).sum + (if k ∈ l then v - f k else 0) := by
  induction l with
  | nil => simp
  | cons a l ih =>
    rw [List.nodup_cons] at hl
    rw [List.map_cons, List.map_cons, List.sum_cons, List.sum_cons]
    by_cases hk : k = a
    · subst hk
      rw [if_pos rfl]
      have hm : ∀ y ∈ l, (if k = y then v else f y) = f y := by
        intro y hy
        refine if_neg (fun h => hl.1 ?_)
        rw [h]
        exact hy
      rw [List.map_congr_left hm, if_pos (List.mem_cons_self _ _)]
      ring
    · rw [if_neg hk, ih hl.2]
      by_cases hkl : k ∈ l
      · rw [if_pos hkl, if_pos (List.mem_cons_of_mem _ hkl)]
        ring
      · rw [if_neg hkl, if_neg (fun hc => (List.mem_cons.mp hc).elim hk hkl)]
        ring

theorem tsSum_tsSlice_eq_yearRange_sum {s : TS} (hnd : (tsKeys s).Nodup) (a b : Int) :
    tsSum (tsSlice s a b) = ((yearRange a b).map (fun y => tsGetD s y)).sum := by
  induction s with
  | nil =>
    rw [tsSlice_nil, tsSum_nil]
    refine (List.sum_eq_zero ?_).symm
    intro q hq
    rcases List.mem_map.mp hq with ⟨y, _, hqe⟩
    rw [← hqe]
    rfl
  | cons p rest ih =>
    obtain ⟨k, v⟩ := p
    rw [tsKeys_cons, List.nodup_cons] at hnd
    have hval : ∀ y ∈ yearRange a b,
        tsGetD ((k, v) :: rest) y = if k = y then v else tsGetD rest y := by
      intro y _
      rw [tsGetD, tsLookup_cons]
      by_cases h : k = y
      · rw [if_pos h, if_pos h]
        rfl
      · rw [if_neg h, if_neg h]
        rfl
    have hgk : tsGetD rest k = 0 := by
      rw [tsGetD, tsLookup_eq_none hnd.1]
      rfl
    rw [List.map_congr_left hval, sum_map_ite_of_nodup (nodup_yearRange a b),
        ← ih hnd.2, tsSlice_cons, hgk]
    by_cases hin : a ≤ k ∧ k ≤ b
    · rw [if_pos (by exact hin), if_pos (mem_yearRange.mpr hin), tsSum_cons]
      ring
    · rw [if_neg (by exact hin), if_neg (fun hc => hin (mem_yearRange.mp hc))]
      ring

theorem tsKeys_tsCumsumFrom (a : ℚ) (s : TS) : tsKeys (tsCumsumFrom a s) = tsKeys s := by
  induction s generalizing a with
  | nil => rfl
  | cons p rest ih =>
    obtain ⟨k, v⟩ := p
    rw [show tsCumsumFrom a ((k, v) :: rest) = (k, a + v) :: tsCumsumFrom (a + v) rest
          from rfl,
        tsKeys_cons, tsKeys_cons, ih]

theorem tsKeys_tsCumsum (s : TS) : tsKeys (tsCumsum s) = tsKeys s :=
  tsKeys_tsCumsumFrom 0 s

theorem filter_le_eq_nil {s : TS} {y : Int} (h : ∀ p ∈ s, y < p.1) :
    s.filter (fun p => decide (p.1 ≤ y)) = [] := by
  rw [List.filter_eq_nil_iff]
  intro p hp
  simpa using (h p hp).not_le

theorem tsLookup_tsCumsumFrom {s : TS} (hs : keysSorted s) {y : Int}
    (hy : y ∈ tsKeys s) (a : ℚ) :
    tsLookup (tsCumsumFrom a s) y
      = some (a + tsSum (s.filter (fun p => decide (p.1 ≤ y)))) := by
  induction s generalizing a with
  | nil => cases hy
  | cons p rest ih =>
    obtain ⟨k, v⟩ := p
    rw [keysSorted, tsKeys_cons, List.pairwise_cons] at hs
    rw [show tsCumsumFrom a ((k, v) :: rest) = (k, a + v) :: tsCumsumFrom (a + v) rest
          from rfl]
    by_cases hk : k = y
    · subst hk
      rw [tsLookup_cons, if_pos rfl]
      have hnil : rest.filter (fun p => decide (p.1 ≤ k)) = [] :=
        filter_le_eq_nil (fun q hq => hs.1 q.1 (List.mem_map_of_mem _ hq))
      simp [List.filter_cons, hnil, tsSum]
    · have hy' : y ∈ tsKeys rest := by
        rcases List.mem_cons.mp hy with h | h
        · exact absurd h.symm hk
        · exact h
      have hky : k ≤ y := le_of_lt (hs.1 y hy')
      rw [tsLookup_cons, if_neg hk, ih hs.2 hy' (a + v)]
      simp [List.filter_cons, hky, tsSum, add_assoc]

theorem tsSum_filter_le_split (s : TS) {a b : Int} (hab : a ≤ b) :
    tsSum (s.filter (fun p => decide (p.1 ≤ b)))
      - tsSum (s.filter (fun p => decide (p.1 ≤ a)))
      = tsSum (tsSlice s (a + 1) b) := by
  induction s with
  | nil => simp [tsSum, tsSlice]
  | cons p rest ih =>
    rw [tsSlice_cons, List.filter_cons, List.filter_cons]
    by_cases h1 : p.1 ≤ a
    · have h2 : p.1 ≤ b := le_trans h1 hab
      have h3 : ¬(a + 1 ≤ p.1 ∧ p.1 ≤ b) := by omega
      rw [if_pos (by simpa using h2), if_pos (by simpa using h1), if_neg h3,
          tsSum_cons, tsSum_cons]
      linarith [ih]
    · by_cases h2 : p.1 ≤ b
      · have h3 : a + 1 ≤ p.1 ∧ p.1 ≤ b := by omega
        rw [if_pos (by simpa using h2), if_neg (by simpa using h1), if_pos h3,
            tsSum_cons, tsSum_cons]
        linarith [ih]
      · have h3 : ¬(a + 1 ≤ p.1 ∧ p.1 ≤ b) := by omega
        rw [if_neg (by simpa using h2), if_neg (by simpa using h1), if_neg h3]
        exact ih

theorem cumsum_diff_eq_slice_sum {S : TS} (hs : keysSorted S) {s0 e0 : Int}
    (hstart : s0 ∈ tsKeys S) (hend : e0 ∈ tsKeys S) (hle : s0 ≤ e0) :
    tsGetD (tsCumsum S) e0 - tsGetD (tsCumsum S) s0
      = tsSum (tsSlice S (s0 + 1) e0) := by
  rw [tsCumsum, tsGetD, tsGetD, tsLookup_tsCumsumFrom hs hend 0,
      tsLookup_tsCumsumFrom hs hstart 0, Option.getD_some, Option.getD_some]
  have h := tsSum_filter_le_split S hle
  linarith

/-! ### Positional (row-index) lemmas for the discounting pipeline -/

theorem length_tsDiscountPositional (r : ℚ) (s : TS) :
    (tsDiscountPositional r s).length = s.length := by
  simp [tsDiscountPositional]

theorem sum_enumFrom_map (g : ℕ → Int × ℚ → ℚ) :
    ∀ (s : TS) (k : ℕ),
      ((List.enumFrom k s).map (fun ip => g ip.1 ip.2)).sum
        = ∑ i in Finset.range s.length, g (k + i) (s.getD i (0, 0)) := by
  intro s
  induction s with
  | nil => intro k; simp
  | cons p rest ih =>
    intro k
    rw [List.enumFrom_cons, List.map_cons, List.sum_cons, ih (k + 1),
        List.length_cons, Finset.sum_range_succ']
    simp only [List.getD_cons_zero, List.getD_cons_succ, Nat.add_zero]
    rw [add_comm]
    congr 1
    apply Finset.sum_congr rfl
    intro i _
    congr 1
    omega

theorem tsSum_map_snd (s : TS) : tsSum s = (s.map Prod.snd).sum := rfl

theorem tsSum_tsDiscountPositional (r : ℚ) (s : TS) :
    tsSum (tsDiscountPositional r s)
      = ∑ i in Finset.range s.length,
          (s.getD i (0, 0)).2 * (1 / (1 + r)) ^ (i + 1) := by
  rw [tsSum, tsDiscountPositional, List.enum, List.map_map]
  have h := sum_enumFrom_map
    (fun i p => p.2 * (1 / (1 + r)) ^ (i + 1)) s 0
  simpa using h

theorem tsDiscountPositional_zero (s : TS) : tsDiscountPositional 0 s = s := by
  rw [tsDiscountPositional, List.enum]
  have h : ∀ (k : ℕ),
      (List.enumFrom k s).map
          (fun ip => (ip.2.1, ip.2.2 * (1 / (1 + (0 : ℚ))) ^ (ip.1 + 1))) = s := by
    induction s with
    | nil => intro k; rfl
    | cons p rest ih =>
      intro k
      rw [List.enumFrom_cons, List.map_cons, ih (k + 1)]
      norm_num
  exact h 0

theorem getD_enumFrom_map (g : ℕ × (Int × ℚ) → Int × ℚ) :
    ∀ (s : TS) (k i : ℕ), i < s.length →
      ((List.enumFrom k s).map g).getD i (0, 0) = g (k + i, s.getD i (0, 0)) := by
  intro s
  induction s with
  | nil => intro k i hi; cases hi
  | cons p rest ih =>
    intro k i hi
    rw [List.enumFrom_cons, List.map_cons]
    cases i with
    | zero => simp
    | succ j =>
      rw [List.getD_cons_succ, List.getD_cons_succ,
          ih (k + 1) j (by simpa using Nat.lt_of_succ_lt_succ hi)]
      congr 2
      omega

theorem getD_tsDiscountPositional (r : ℚ) (s : TS) (i : ℕ) (hi : i < s.length) :
    (tsDiscountPositional r s).getD i (0, 0)
      = ((s.getD i (0, 0)).1, (s.getD i (0, 0)).2 * (1 / (1 + r)) ^ (i + 1)) := by
  rw [tsDiscountPositional, List.enum]
  have h := getD_enumFrom_map
    (fun ip => (ip.2.1, ip.2.2 * (1 / (1 + r)) ^ (ip.1 + 1))) s 0 i hi
  simpa using h

theorem tsSum_tsSlice_eq_rangeSum (lo hi : Int) :
    ∀ l : TS,
      tsSum (tsSlice l lo hi)
        = ∑ i in Finset.range l.length,
            (if lo ≤ (l.getD i (0, 0)).1 ∧ (l.getD i (0, 0)).1 ≤ hi
             then (l.getD i (0, 0)).2 else 0) := by
  intro l
  induction l with
  | nil => simp [tsSlice, tsSum]
  | cons p rest ih =>
    rw [tsSlice_cons, List.length_cons, Finset.sum_range_succ']
    simp only [List.getD_cons_zero, List.getD_cons_succ]
    by_cases h : lo ≤ p.1 ∧ p.1 ≤ hi
    · rw [if_pos h, if_pos h, tsSum_cons, ih]
      ring
    · rw [if_neg h, if_neg h, ih]
      ring

theorem getD_map_key (f : Int → ℚ) :
    ∀ (L : List Int) (i : ℕ), i < L.length →
      ((L.map (fun y => (y, f y))).getD i (0, 0) : Int × ℚ)
        = (L.getD i 0, f (L.getD i 0)) := by
  intro L
  induction L with
  | nil => intro i hi; cases hi
  | cons a L ih =>
    intro i hi
    rw [List.map_cons]
    cases i with
    | zero => simp
    | succ j =>
      rw [List.getD_cons_succ, List.getD_cons_succ]
      exact ih j (by simpa using Nat.lt_of_succ_lt_succ hi)

theorem getD_mem_of_lt {L : List Int} {i : ℕ} (hi : i < L.length) :
    L.getD i 0 ∈ L := by
  rw [List.getD_eq_getElem L 0 hi]
  exact List.getElem_mem hi

/-! ### Running cumulative sums and their maxima -/

/-- The 1-based partial sums of a list: entry `i` is the sum of the first
`i + 1` values. -/
def partialSums (l : List ℚ) : List ℚ :=
  (List.range l.length).map (fun i => (l.take (i + 1)).sum)

/-- The "payback" characterization from the spec: the maximum value attained
by the running cumulative sum of the series. -/
def maxCumulative (s : TS) : Option ℚ := listMax (partialSums (s.map Prod.snd))

theorem partialSums_cons (v : ℚ) (l : List ℚ) :
    partialSums (v :: l) = v :: (partialSums l).map (fun q => v + q) := by
  apply List.ext_getElem
  · simp [partialSums]
  · intro i h1 h2
    cases i with
    | zero => simp [partialSums]
    | succ j => simp [partialSums, List.take_succ_cons]

theorem map_snd_tsCumsumFrom (s : TS) :
    ∀ a : ℚ, (tsCumsumFrom a s).map Prod.snd
      = (partialSums (s.map Prod.snd)).map (fun q => a + q) := by
  induction s with
  | nil =>
    intro a
    simp [tsCumsumFrom, partialSums]
  | cons p rest ih =>
    intro a
    rw [show tsCumsumFrom a (p :: rest) = (p.1, a + p.2) :: tsCumsumFrom (a + p.2) rest
          from rfl,
        List.map_cons, ih (a + p.2), List.map_cons, partialSums_cons,
        List.map_cons, List.map_map]
    congr 1
    apply List.map_congr_left
    intro q _
    simp [add_assoc]

theorem tsMaxVal_tsCumsum (s : TS) : tsMaxVal (tsCumsum s) = maxCumulative s := by
  rw [tsMaxVal, tsCumsum, map_snd_tsCumsumFrom s 0, maxCumulative]
  congr 1
  simp

theorem listMax_spec : ∀ {l : List ℚ}, l ≠ [] →
    ∃ m, listMax l = some m ∧ m ∈ l ∧ ∀ v ∈ l, v ≤ m := by
  intro l
  induction l with
  | nil => intro h; exact absurd rfl h
  | cons v l ih =>
    intro _
    by_cases hl : l = []
    · subst hl
      refine ⟨v, rfl, List.mem_cons_self _ _, ?_⟩
      intro w hw
      rcases List.mem_cons.mp hw with h | h
      · exact le_of_eq h
      · cases h
    · obtain ⟨m, hm, hmem, hle⟩ := ih hl
      refine ⟨max v m, ?_, ?_, ?_⟩
      · show some (match listMax l with | none => v | some m2 => max v m2)
            = some (max v m)
        rw [hm]
      · rcases max_cases v m with ⟨he, _⟩ | ⟨he, _⟩
        · rw [he]
          exact List.mem_cons_self _ _
        · rw [he]
          exact List.mem_cons_of_mem _ hmem
      · intro w hw
        rcases List.mem_cons.mp hw with h | h
        · exact h ▸ le_max_left _ _
        · exact le_trans (hle w h) (le_max_right _ _)

theorem listMax_eq_none_iff {l : List ℚ} : listMax l = none ↔ l = [] := by
  cases l with
  | nil => simp [listMax]
  | cons v l => simp [listMax]

theorem keysSorted_tsScale (c : ℚ) (s : TS) : keysSorted (tsScale c s) ↔ keysSorted s := by
  unfold keysSorted
  rw [tsKeys_tsScale]

theorem tsLocList_eq_some {s : TS} {ys : List Int}
    (h : ∀ y ∈ ys, y ∈ tsKeys s) :
    tsLocList s ys = some (ys.map (fun y => (y, tsGetD s y))) := by
  induction ys with
  | nil => rfl
  | cons y ys ih =>
    obtain ⟨v, hv⟩ := tsLookup_exists_of_mem (h y (List.mem_cons_self _ _))
    rw [tsLocList, List.mapM_cons]
    have hrest := ih (fun z hz => h z (List.mem_cons_of_mem _ hz))
    rw [tsLocList] at hrest
    rw [hv, hrest]
    simp [tsGetD, hv]

/-! ### Concrete fixtures -/

/-- A scenario with empty series, the base for concrete fixtures. -/
def emptyScenario : Scenario where
  get_units_adopted := []
  get_tam_units := []
  get_annual_world_first_cost := []
  get_operating_cost := fun _ => []
  get_lifetime_operating_savings := fun _ => []
  get_lifetime_cashflow_npv := fun _ _ => []
  get_net_profit_margin := fun _ => []
  get_carbon_sequestration2 := fun _ _ => []
  get_carbon_sequestration4 := fun _ _ _ _ => []
  get_change_in_ppm_equiv_series := []
  total_at_risk_area := []

/-- PDS fixture: series share the key range `[2018, 2023]` or sub-ranges of
it; values are arbitrary but distinct. -/
def fixturePds : Scenario :=
  { emptyScenario with
    get_annual_world_first_cost :=
      [(2018, 7), (2019, 10), (2020, 20), (2021, 30), (2022, 40), (2023, 99)]
    get_operating_cost := fun _ => [(2019, 1), (2020, 2), (2021, 3), (2022, 4)]
    get_lifetime_operating_savings := fun _ =>
      [(2019, 5), (2020, 6), (2021, 7), (2022, 8)]
    get_lifetime_cashflow_npv := fun _ _ =>
      [(2020, 100), (2021, -40), (2022, -40), (2023, -40), (2024, 5)]
    get_net_profit_margin := fun _ => [(2019, 2), (2020, 4), (2021, 6), (2022, 8)]
    get_carbon_sequestration2 := fun _ _ =>
      [(2019, 0), (2020, 100), (2021, 1000), (2022, 500)]
    get_carbon_sequestration4 := fun _ _ _ _ =>
      [(2019, 1), (2020, 2), (2021, 5), (2022, 3)] }

/-- REF fixture: same key sets as the PDS fixture, different values. -/
def fixtureRef : Scenario :=
  { emptyScenario with
    get_annual_world_first_cost :=
      [(2018, 1), (2019, 4), (2020, 5), (2021, 6), (2022, 7), (2023, 11)]
    get_operating_cost := fun _ => [(2019, 1), (2020, 1), (2021, 1), (2022, 1)]
    get_lifetime_operating_savings := fun _ =>
      [(2019, 1), (2020, 1), (2021, 2), (2022, 2)]
    get_net_profit_margin := fun _ => [(2019, 1), (2020, 1), (2021, 1), (2022, 1)]
    get_carbon_sequestration2 := fun _ _ =>
      [(2019, 0), (2020, 50), (2021, 500), (2022, 100)]
    get_carbon_sequestration4 := fun _ _ _ _ =>
      [(2019, 0), (2020, 1), (2021, 2), (2022, 1)] }

/-- A configured context over the fixtures: `base_year = 2019`,
`start_year = 2020`, `end_year = 2022`, discount rate `0`, disturbance
rate `1`. -/
def fixtureCtx : OceanCtx where
  start_year := 2020
  base_year := 2019
  end_year := 2022
  npv_discount_rate := 0
  disturbance_rate := 1
  growth_rate_of_ocean_degradation := 0
  sequestration_rate_all_ocean := 0
  delay_impact_of_protection_by_one_year := false
  delay_regrowth_of_degraded_land_by_one_year := false
  pds_scenario := fixturePds
  ref_scenario := fixtureRef

/-! ### Claims -/

/-- **C9** (code bug in the source): the spec says every public metric method
returns a single real scalar or a full time series, but
`get_total_emissions_reduction` reads `total_at_risk_area` into a local and
then executes a bare `return`, so every call returns `None` — it is the one
public metric method that returns no value. -/
theorem claim_C9_total_emissions_reduction_returns_none :
    ∀ c : OceanCtx, get_total_emissions_reduction c = none := fun _ => rfl

/-- **C10**: `get_payback_period_soln_only`, `get_payback_period_soln_only_npv`
and `get_payback_period_soln_to_conv_npv` all negate the same PDS
lifetime-cashflow-NPV series at the purchase year with discount rate
`npv_discount_rate` and return the maximum of its cumulative sum, so the
three agree on every context and purchase year (only
`get_payback_period_soln_to_conv`, which uses rate `0.0`, can differ). -/
theorem claim_C10_payback_variants_agree :
    ∀ (c : OceanCtx) (purchase_year : Int),
      get_payback_period_soln_only c purchase_year
          = get_payback_period_soln_only_npv c purchase_year
        ∧ get_payback_period_soln_only_npv c purchase_year
          = get_payback_period_soln_to_conv_npv c purchase_year := by
  intro c py
  constructor
  · rfl
  · simp only [get_payback_period_soln_only_npv, get_payback_period_soln_to_conv_npv,
      tsScale_neg_one]

/-- **C3**: each of the four payback-period methods negates the PDS
lifetime-cashflow-NPV series at the purchase year (rate `npv_discount_rate`,
except rate `0.0` for `get_payback_period_soln_to_conv`), takes the running
cumulative sum and returns the maximum value attained (not the year); on the
fixture whose negated series is `[-100, 40, 40, 40, -5]` (cumulative sums
`[-100, -60, -20, 20, 15]`) all four return `20`. -/
theorem claim_C3_payback_max_of_cumsum :
    (∀ (c : OceanCtx) (py : Int),
        get_payback_period_soln_only c py
          = maxCumulative
              (tsNeg (c.pds_scenario.get_lifetime_cashflow_npv py c.npv_discount_rate)))
  ∧ (∀ (c : OceanCtx) (py : Int),
        get_payback_period_soln_only_npv c py
          = maxCumulative
              (tsNeg (c.pds_scenario.get_lifetime_cashflow_npv py c.npv_discount_rate)))
  ∧ (∀ (c : OceanCtx) (py : Int),
        get_payback_period_soln_to_conv c py
          = maxCumulative (tsNeg (c.pds_scenario.get_lifetime_cashflow_npv py 0)))
  ∧ (∀ (c : OceanCtx) (py : Int),
        get_payback_period_soln_to_conv_npv c py
          = maxCumulative
              (tsNeg (c.pds_scenario.get_lifetime_cashflow_npv py c.npv_discount_rate)))
  ∧ (get_payback_period_soln_only fixtureCtx 2020 = some 20
      ∧ get_payback_period_soln_only_npv fixtureCtx 2020 = some 20
      ∧ get_payback_period_soln_to_conv fixtureCtx 2020 = some 20
      ∧ get_payback_period_soln_to_conv_npv fixtureCtx 2020 = some 20) := by
  refine ⟨?_, ?_, ?_, ?_, ?_, ?_, ?_, ?_⟩
  · intro c py
    simp only [get_payback_period_soln_only, tsScale_neg_one, tsMaxVal_tsCumsum]
  · intro c py
    simp only [get_payback_period_soln_only_npv, tsScale_neg_one, tsMaxVal_tsCumsum]
  · intro c py
    simp only [get_payback_period_soln_to_conv, tsMaxVal_tsCumsum]
  · intro c py
    simp only [get_payback_period_soln_to_conv_npv, tsMaxVal_tsCumsum]
  · norm_num [get_payback_period_soln_only, fixtureCtx, fixturePds, emptyScenario,
      tsScale, tsCumsum, tsCumsumFrom, tsMaxVal, listMax]
  · norm_num [get_payback_period_soln_only_npv, fixtureCtx, fixturePds, emptyScenario,
      tsScale, tsCumsum, tsCumsumFrom, tsMaxVal, listMax]
  · norm_num [get_payback_period_soln_to_conv, fixtureCtx, fixturePds, emptyScenario,
      tsNeg, tsCumsum, tsCumsumFrom, tsMaxVal, listMax]
  · norm_num [get_payback_period_soln_to_conv_npv, fixtureCtx, fixturePds, emptyScenario,
      tsNeg, tsCumsum, tsCumsumFrom, tsMaxVal, listMax]

theorem nodup_of_keysSorted {s : TS} (h : keysSorted s) : (tsKeys s).Nodup :=
  List.Pairwise.imp (fun hlt => ne_of_lt hlt) h

/-- **C8**: with `npv_discount_rate = 0`, every positional discount factor
`(1/(1+0))^(row+1)` equals `1`, so `get_lifetime_cashflow_npv_all` returns
exactly the plain (undiscounted) sum of the net cash flow series divided by
1000. -/
theorem claim_C8_npv_all_zero_rate (c : OceanCtx) (h : c.npv_discount_rate = 0) :
    get_lifetime_cashflow_npv_all c = tsSum (npvAllNetCashFlow c) / 1000 := by
  simp only [get_lifetime_cashflow_npv_all, h, tsDiscountPositional_zero]

/-- Witness for C8 on the fixture context (discount rate `0`). -/
theorem claim_C8_witness :
    fixtureCtx.npv_discount_rate = 0
      ∧ get_lifetime_cashflow_npv_all fixtureCtx
          = tsSum (npvAllNetCashFlow fixtureCtx) / 1000
      ∧ get_lifetime_cashflow_npv_all fixtureCtx = -13/100 := by
  refine ⟨rfl, claim_C8_npv_all_zero_rate fixtureCtx rfl, ?_⟩
  norm_num [get_lifetime_cashflow_npv_all, npvAllNetCashFlow, fixtureCtx, fixturePds,
    fixtureRef, emptyScenario, tsSub, tsSlice, tsScale, tsAddFill, tsGetD, tsLookup,
    tsKeys, mergeKeys, insertKey, tsDiscountPositional, tsSum, List.enum, List.enumFrom]

/-- **C2**: `get_lifetime_cashflow_npv_all` combines the clipped net first
cost (`REF − PDS` over `[start_year−1, end_year]`) with
`−PDS.lifetimeOperatingSavings(end_year) × (1+disturbance_rate)` aligned by
year with a missing key contributing `0` (second conjunct), multiplies row
`i` of the combined series by `(1/(1+npv_discount_rate))^(i+1)` where `i` is
the 0-based position within the combined series — not a calendar-year
distance — sums, and divides by 1000 (first conjunct). -/
theorem claim_C2_npv_all_pipeline (c : OceanCtx) :
    (get_lifetime_cashflow_npv_all c
        = (∑ i in Finset.range (npvAllNetCashFlow c).length,
            ((npvAllNetCashFlow c).getD i (0, 0)).2
              * (1 / (1 + c.npv_discount_rate)) ^ (i + 1)) / 1000)
  ∧ ∀ y : Int,
      tsLookup (npvAllNetCashFlow c) y
        = (if y ∈ tsKeys (tsSlice
                (tsSub c.ref_scenario.get_annual_world_first_cost
                       c.pds_scenario.get_annual_world_first_cost)
                (c.start_year - 1) c.end_year)
              ∨ y ∈ tsKeys (tsScale (-(1 + c.disturbance_rate))
                  (c.pds_scenario.get_lifetime_operating_savings c.end_year))
           then some
             (tsGetD (tsSlice
                 (tsSub c.ref_scenario.get_annual_world_first_cost
                        c.pds_scenario.get_annual_world_first_cost)
                 (c.start_year - 1) c.end_year) y
              + tsGetD (tsScale (-(1 + c.disturbance_rate))
                  (c.pds_scenario.get_lifetime_operating_savings c.end_year)) y)
           else none) := by
  constructor
  · show tsSum (tsDiscountPositional c.npv_discount_rate (npvAllNetCashFlow c)) / 1000 = _
    rw [tsSum_tsDiscountPositional]
  · intro y
    exact tsLookup_tsAddFill _ _ y

/-- **C5**: `get_total_co2_seq` computes the net series
`PDS.carbonSequestration(seqRate, disturbanceRate) −
REF.carbonSequestration(seqRate, disturbanceRate)` — reading only the
two-parameter sequestration accessor (second conjunct: the four-parameter
accessor is irrelevant to it) — sums it over the inclusive year range
`[start_year+1, end_year]`, and divides by 1000. -/
theorem claim_C5_total_co2_seq (c : OceanCtx)
    (hsorted : keysSorted (c.pds_scenario.get_carbon_sequestration2
        c.sequestration_rate_all_ocean c.disturbance_rate))
    (hkeys : tsKeys (c.ref_scenario.get_carbon_sequestration2
          c.sequestration_rate_all_ocean c.disturbance_rate)
        = tsKeys (c.pds_scenario.get_carbon_sequestration2
          c.sequestration_rate_all_ocean c.disturbance_rate)) :
    (get_total_co2_seq c
        = ((yearRange (c.start_year + 1) c.end_year).map
            (fun y =>
              tsGetD (c.pds_scenario.get_carbon_sequestration2
                  c.sequestration_rate_all_ocean c.disturbance_rate) y
                - tsGetD (c.ref_scenario.get_carbon_sequestration2
                  c.sequestration_rate_all_ocean c.disturbance_rate) y)).sum / 1000)
  ∧ ∀ g4p g4r,
      get_total_co2_seq
        { c with
            pds_scenario := { c.pds_scenario with get_carbon_sequestration4 := g4p },
            ref_scenario := { c.ref_scenario with get_carbon_sequestration4 := g4r } }
        = get_total_co2_seq c := by
  constructor
  · have hnd := nodup_of_keysSorted hsorted
    have hndSub : (tsKeys (tsSub
        (c.pds_scenario.get_carbon_sequestration2
          c.sequestration_rate_all_ocean c.disturbance_rate)
        (c.ref_scenario.get_carbon_sequestration2
          c.sequestration_rate_all_ocean c.disturbance_rate))).Nodup :=
      List.Nodup.sublist (tsKeys_tsSub_sublist _ _) hnd
    show tsSum (tsSlice _ (c.start_year + 1) c.end_year) / 1000 = _
    rw [tsSum_tsSlice_eq_yearRange_sum hndSub]
    congr 1
    congr 1
    apply List.map_congr_left
    intro y _
    by_cases hmem : y ∈ tsKeys (c.pds_scenario.get_carbon_sequestration2
        c.sequestration_rate_all_ocean c.disturbance_rate)
    · have hmemR : y ∈ tsKeys (c.ref_scenario.get_carbon_sequestration2
          c.sequestration_rate_all_ocean c.disturbance_rate) := by
        rw [hkeys]
        exact hmem
      exact tsGetD_tsSub_of_mem hnd hmem hmemR
    · have h1 : tsGetD (tsSub
          (c.pds_scenario.get_carbon_sequestration2
            c.sequestration_rate_all_ocean c.disturbance_rate)
          (c.ref_scenario.get_carbon_sequestration2
            c.sequestration_rate_all_ocean c.disturbance_rate)) y = 0 := by
        rw [tsGetD, tsLookup_eq_none (fun hc => hmem (tsKeys_tsSub_subset hc))]
        rfl
      have h2 : tsGetD (c.pds_scenario.get_carbon_sequestration2
          c.sequestration_rate_all_ocean c.disturbance_rate) y = 0 := by
        rw [tsGetD, tsLookup_eq_none hmem]
        rfl
      have h3 : tsGetD (c.ref_scenario.get_carbon_sequestration2
          c.sequestration_rate_all_ocean c.disturbance_rate) y = 0 := by
        rw [tsGetD, tsLookup_eq_none (fun hc => hmem (by rw [← hkeys]; exact hc))]
        rfl
      rw [h1, h2, h3]
      ring
  · intro g4p g4r
    rfl

/-- Witness for C5 on the fixture context. -/
theorem claim_C5_witness : get_total_co2_seq fixtureCtx = 9/10 := by
  have h := (claim_C5_total_co2_seq fixtureCtx (by decide) (by decide)).1
  have hyr : yearRange (fixtureCtx.start_year + 1) fixtureCtx.end_year
      = [2021, 2022] := by decide
  rw [h, hyr]
  norm_num [fixtureCtx, fixturePds, fixtureRef, emptyScenario, tsGetD, tsLookup]

/-- Shared helper for C7: the closed formula for `get_marginal_first_cost`
under the data-model invariants. -/
theorem marginal_first_cost_formula (c : OceanCtx)
    (hkeys : tsKeys c.ref_scenario.get_annual_world_first_cost
        = tsKeys c.pds_scenario.get_annual_world_first_cost)
    (hnd : (tsKeys c.pds_scenario.get_annual_world_first_cost).Nodup)
    (hcov : coversRange c.pds_scenario.get_annual_world_first_cost
        c.base_year c.end_year) :
    get_marginal_first_cost c
      = some (((yearRange c.base_year c.end_year).map
          (fun y => tsGetD c.pds_scenario.get_annual_world_first_cost y
            - tsGetD c.ref_scenario.get_annual_world_first_cost y)).sum / 1000) := by
  have hsubkeys : ∀ y ∈ yearRange c.base_year c.end_year,
      y ∈ tsKeys (tsSub c.pds_scenario.get_annual_world_first_cost
        c.ref_scenario.get_annual_world_first_cost) := by
    intro y hy
    rw [mem_tsKeys_tsSub]
    exact ⟨hcov y hy, by rw [hkeys]; exact hcov y hy⟩
  simp only [get_marginal_first_cost]
  rw [tsLocList_eq_some hsubkeys]
  simp only [Option.map_some']
  congr 1
  congr 1
  rw [tsSum, List.map_map]
  refine congrArg List.sum (List.map_congr_left ?_)
  intro y hy
  show tsGetD (tsSub _ _) y = _
  exact tsGetD_tsSub_of_mem hnd (hcov y hy) (by rw [hkeys]; exact hcov y hy)

/-- **C7**: `get_marginal_first_cost` returns the sum over the inclusive year
range `[base_year, end_year]` of `PDS.firstCost − REF.firstCost`, divided by
1000; the formula reads only the years of that range, and the second conjunct
makes the sentinel independence explicit: any context with the same
`[base_year, end_year]` window and the same values on it — whatever is stored
at `base_year − 1` or `end_year + 1` — produces the same result. -/
theorem claim_C7_marginal_first_cost (c : OceanCtx)
    (hkeys : tsKeys c.ref_scenario.get_annual_world_first_cost
        = tsKeys c.pds_scenario.get_annual_world_first_cost)
    (hnd : (tsKeys c.pds_scenario.get_annual_world_first_cost).Nodup)
    (hcov : coversRange c.pds_scenario.get_annual_world_first_cost
        c.base_year c.end_year) :
    (get_marginal_first_cost c
        = some (((yearRange c.base_year c.end_year).map
            (fun y => tsGetD c.pds_scenario.get_annual_world_first_cost y
              - tsGetD c.ref_scenario.get_annual_world_first_cost y)).sum / 1000))
  ∧ ∀ c' : OceanCtx,
      tsKeys c'.ref_scenario.get_annual_world_first_cost
          = tsKeys c'.pds_scenario.get_annual_world_first_cost →
      (tsKeys c'.pds_scenario.get_annual_world_first_cost).Nodup →
      coversRange c'.pds_scenario.get_annual_world_first_cost
          c'.base_year c'.end_year →
      c'.base_year = c.base_year → c'.end_year = c.end_year →
      (∀ y ∈ yearRange c.base_year c.end_year,
        tsGetD c'.pds_scenario.get_annual_world_first_cost y
            = tsGetD c.pds_scenario.get_annual_world_first_cost y
          ∧ tsGetD c'.ref_scenario.get_annual_world_first_cost y
            = tsGetD c.ref_scenario.get_annual_world_first_cost y) →
      get_marginal_first_cost c' = get_marginal_first_cost c := by
  constructor
  · exact marginal_first_cost_formula c hkeys hnd hcov
  · intro c' hkeys' hnd' hcov' hbase hend hagree
    rw [marginal_first_cost_formula c hkeys hnd hcov,
        marginal_first_cost_formula c' hkeys' hnd' hcov', hbase, hend]
    congr 2
    refine congrArg List.sum (List.map_congr_left ?_)
    intro y hy
    rw [(hagree y hy).1, (hagree y hy).2]

/-- The fixture context with different sentinel values at `base_year − 1`
(2018) and `end_year + 1` (2023) in both first-cost series. -/
def fixtureCtxAltSentinels : OceanCtx :=
  { fixtureCtx with
      pds_scenario := { fixturePds with get_annual_world_first_cost :=
        [(2018, 1000), (2019, 10), (2020, 20), (2021, 30), (2022, 40), (2023, -777)] }
      ref_scenario := { fixtureRef with get_annual_world_first_cost :=
        [(2018, -5), (2019, 4), (2020, 5), (2021, 6), (2022, 7), (2023, 123)] } }

/-- Witness for C7: the result on the fixture, and its invariance under
changing the two sentinel values. -/
theorem claim_C7_witness :
    get_marginal_first_cost fixtureCtx = some (39/500)
      ∧ get_marginal_first_cost fixtureCtxAltSentinels
        = get_marginal_first_cost fixtureCtx := by
  have h := claim_C7_marginal_first_cost fixtureCtx (by decide) (by decide) (by decide)
  constructor
  · rw [h.1]
    have hyr : yearRange fixtureCtx.base_year fixtureCtx.end_year
        = [2019, 2020, 2021, 2022] := by decide
    rw [hyr]
    norm_num [fixtureCtx, fixturePds, fixtureRef, emptyScenario, tsGetD, tsLookup]
  · refine h.2 fixtureCtxAltSentinels (by decide) (by decide) (by decide) rfl rfl ?_
    intro y hy
    have hy4 : y = 2019 ∨ y = 2020 ∨ y = 2021 ∨ y = 2022 := by
      have hb : (2019 : Int) ≤ y ∧ y ≤ 2022 := by
        simpa [fixtureCtx] using mem_yearRange.mp hy
      omega
    rcases hy4 with rfl | rfl | rfl | rfl <;> exact ⟨by decide, by decide⟩

/-- **C4**: `get_operating_cost` scales each scenario's operating-cost series
by `(1 + disturbance_rate)`, takes its running cumulative sum, subtracts the
cumulative value at `start_year` from the value at `end_year`, and returns
`(REF_result − PDS_result) / 1000`; the cumsum-difference equals the plain
sum of the series over years `start_year+1 .. end_year` (first conjunct uses
that form), and the second conjunct states the identity for an arbitrary
series. -/
theorem claim_C4_operating_cost_cumsum_diff (c : OceanCtx)
    (hsP : keysSorted (c.pds_scenario.get_operating_cost c.end_year))
    (hsR : keysSorted (c.ref_scenario.get_operating_cost c.end_year))
    (hstartP : c.start_year ∈ tsKeys (c.pds_scenario.get_operating_cost c.end_year))
    (hendP : c.end_year ∈ tsKeys (c.pds_scenario.get_operating_cost c.end_year))
    (hstartR : c.start_year ∈ tsKeys (c.ref_scenario.get_operating_cost c.end_year))
    (hendR : c.end_year ∈ tsKeys (c.ref_scenario.get_operating_cost c.end_year))
    (hle : c.start_year ≤ c.end_year) :
    (get_operating_cost c
        = some ((tsSum (tsSlice
              (tsScale (1 + c.disturbance_rate)
                (c.ref_scenario.get_operating_cost c.end_year))
              (c.start_year + 1) c.end_year)
            - tsSum (tsSlice
              (tsScale (1 + c.disturbance_rate)
                (c.pds_scenario.get_operating_cost c.end_year))
              (c.start_year + 1) c.end_year)) / 1000))
  ∧ ∀ S : TS, keysSorted S → c.start_year ∈ tsKeys S → c.end_year ∈ tsKeys S →
      tsGetD (tsCumsum S) c.end_year - tsGetD (tsCumsum S) c.start_year
        = tsSum (tsSlice S (c.start_year + 1) c.end_year) := by
  constructor
  · have hsP' : keysSorted (tsScale (1 + c.disturbance_rate)
        (c.pds_scenario.get_operating_cost c.end_year)) :=
      (keysSorted_tsScale _ _).mpr hsP
    have hsR' : keysSorted (tsScale (1 + c.disturbance_rate)
        (c.ref_scenario.get_operating_cost c.end_year)) :=
      (keysSorted_tsScale _ _).mpr hsR
    have hmPs : c.start_year ∈ tsKeys (tsScale (1 + c.disturbance_rate)
        (c.pds_scenario.get_operating_cost c.end_year)) := by
      rw [tsKeys_tsScale]; exact hstartP
    have hmPe : c.end_year ∈ tsKeys (tsScale (1 + c.disturbance_rate)
        (c.pds_scenario.get_operating_cost c.end_year)) := by
      rw [tsKeys_tsScale]; exact hendP
    have hmRs : c.start_year ∈ tsKeys (tsScale (1 + c.disturbance_rate)
        (c.ref_scenario.get_operating_cost c.end_year)) := by
      rw [tsKeys_tsScale]; exact hstartR
    have hmRe : c.end_year ∈ tsKeys (tsScale (1 + c.disturbance_rate)
        (c.ref_scenario.get_operating_cost c.end_year)) := by
      rw [tsKeys_tsScale]; exact hendR
    obtain ⟨pe, hpe⟩ := tsLookup_exists_of_mem (s := tsCumsum _)
      (by rw [tsKeys_tsCumsum]; exact hmPe)
    obtain ⟨ps, hps⟩ := tsLookup_exists_of_mem (s := tsCumsum _)
      (by rw [tsKeys_tsCumsum]; exact hmPs)
    obtain ⟨re, hre⟩ := tsLookup_exists_of_mem (s := tsCumsum _)
      (by rw [tsKeys_tsCumsum]; exact hmRe)
    obtain ⟨rs, hrs⟩ := tsLookup_exists_of_mem (s := tsCumsum _)
      (by rw [tsKeys_tsCumsum]; exact hmRs)
    have hdP : pe - ps = tsSum (tsSlice
        (tsScale (1 + c.disturbance_rate) (c.pds_scenario.get_operating_cost c.end_year))
        (c.start_year + 1) c.end_year) := by
      have hd := cumsum_diff_eq_slice_sum hsP' hmPs hmPe hle
      rw [tsGetD, tsGetD, hpe, hps] at hd
      simpa using hd
    have hdR : re - rs = tsSum (tsSlice
        (tsScale (1 + c.disturbance_rate) (c.ref_scenario.get_operating_cost c.end_year))
        (c.start_year + 1) c.end_year) := by
      have hd := cumsum_diff_eq_slice_sum hsR' hmRs hmRe hle
      rw [tsGetD, tsGetD, hre, hrs] at hd
      simpa using hd
    simp only [get_operating_cost, hpe, hps, hre, hrs, Option.some_bind]
    rw [← hdP, ← hdR]
    rfl
  · intro S hs hstart hend
    exact cumsum_diff_eq_slice_sum hs hstart hend hle

/-- Witness for C4 on the fixture context. -/
theorem claim_C4_witness : get_operating_cost fixtureCtx = some (-1/100) := by
  have h := (claim_C4_operating_cost_cumsum_diff fixtureCtx (by decide) (by decide) (by decide) (by decide)
    (by decide) (by decide) (by decide)).1
  rw [h]
  norm_num [fixtureCtx, fixturePds, fixtureRef, emptyScenario, tsScale, tsSlice,
    tsSum]

/-- The slice start used by `get_max_annual_co2_sequestered`: one year
earlier when `delay_regrowth_of_degraded_land_by_one_year` is set. -/
def delayAdjustedStart (c : OceanCtx) : Int :=
  if c.delay_regrowth_of_degraded_land_by_one_year then c.start_year - 1 else c.start_year

/-- The evaluation end year used by both sequestration reports: one year
earlier when `delay_regrowth_of_degraded_land_by_one_year` is set. -/
def delayAdjustedEnd (c : OceanCtx) : Int :=
  if c.delay_regrowth_of_degraded_land_by_one_year then c.end_year - 1 else c.end_year

/-- **C6**: with `delay_regrowth_of_degraded_land_by_one_year` set,
`get_max_annual_co2_sequestered` evaluates over `[start_year−1, end_year−1]`
and `get_co2_sequestered_final_year` at `end_year−1` (only the end shifts);
equivalently (first conjunct) each method with the flag equals the method
with the flag cleared on the shifted years, i.e. it evaluates one year
earlier than with the flag false.  The max variant returns the maximum
net-sequestration value in range divided by 1000 (second conjunct), the
final-year variant the single endpoint value divided by 1000 (third
conjunct), and both read only the four-parameter sequestration call (fourth
conjunct: the two-parameter accessor is irrelevant). -/
theorem claim_C6_delay_regrowth_shift (c : OceanCtx)
    (hne : tsSlice (netSequestration4 c) (delayAdjustedStart c) (delayAdjustedEnd c) ≠ []) :
    (get_max_annual_co2_sequestered c
        = get_max_annual_co2_sequestered
            { c with delay_regrowth_of_degraded_land_by_one_year := false,
                     start_year := delayAdjustedStart c,
                     end_year := delayAdjustedEnd c }
      ∧ get_co2_sequestered_final_year c
        = get_co2_sequestered_final_year
            { c with delay_regrowth_of_degraded_land_by_one_year := false,
                     end_year := delayAdjustedEnd c })
  ∧ (∃ m, get_max_annual_co2_sequestered c = some (m / 1000)
        ∧ m ∈ (tsSlice (netSequestration4 c)
            (delayAdjustedStart c) (delayAdjustedEnd c)).map Prod.snd
        ∧ ∀ v ∈ (tsSlice (netSequestration4 c)
            (delayAdjustedStart c) (delayAdjustedEnd c)).map Prod.snd, v ≤ m)
  ∧ (get_co2_sequestered_final_year c
      = (tsLookup (netSequestration4 c) (delayAdjustedEnd c)).map (fun m => m / 1000))
  ∧ ∀ g2p g2r,
      get_max_annual_co2_sequestered
          { c with
              pds_scenario := { c.pds_scenario with get_carbon_sequestration2 := g2p },
              ref_scenario := { c.ref_scenario with get_carbon_sequestration2 := g2r } }
          = get_max_annual_co2_sequestered c
        ∧ get_co2_sequestered_final_year
          { c with
              pds_scenario := { c.pds_scenario with get_carbon_sequestration2 := g2p },
              ref_scenario := { c.ref_scenario with get_carbon_sequestration2 := g2r } }
          = get_co2_sequestered_final_year c := by
  refine ⟨⟨?_, ?_⟩, ?_, ?_, ?_⟩
  · simp only [get_max_annual_co2_sequestered, netSequestration4, delayAdjustedStart,
      delayAdjustedEnd]
    cases c.delay_regrowth_of_degraded_land_by_one_year <;> simp
  · simp only [get_co2_sequestered_final_year, netSequestration4, delayAdjustedEnd]
    cases c.delay_regrowth_of_degraded_land_by_one_year <;> simp
  · have hvals : (tsSlice (netSequestration4 c)
        (delayAdjustedStart c) (delayAdjustedEnd c)).map Prod.snd ≠ [] := by
      intro hcontra
      exact hne (List.map_eq_nil_iff.mp hcontra)
    obtain ⟨m, hm, hmem, hle⟩ := listMax_spec hvals
    refine ⟨m, ?_, hmem, hle⟩
    show (tsMaxVal (tsSlice (netSequestration4 c)
        (delayAdjustedStart c) (delayAdjustedEnd c))).map (fun m => m / 1000)
      = some (m / 1000)
    rw [tsMaxVal, hm]
    rfl
  · rfl
  · intro g2p g2r
    exact ⟨rfl, rfl⟩

/-- The fixture context with the regrowth-delay flag set. -/
def fixtureCtxDelay : OceanCtx :=
  { fixtureCtx with delay_regrowth_of_degraded_land_by_one_year := true }

/-- Witness for C6 on the delayed fixture context: both methods evaluate on
the shifted range `[2019, 2021]`. -/
theorem claim_C6_witness :
    get_max_annual_co2_sequestered fixtureCtxDelay = some (3/1000)
      ∧ get_co2_sequestered_final_year fixtureCtxDelay = some (3/1000) := by
  have hv : (tsSlice (netSequestration4 fixtureCtxDelay)
      (delayAdjustedStart fixtureCtxDelay) (delayAdjustedEnd fixtureCtxDelay)).map
        Prod.snd = [1, 1, 3] := by
    norm_num [netSequestration4, fixtureCtxDelay, fixtureCtx, fixturePds, fixtureRef,
      emptyScenario, tsSub, tsLookup, tsSlice, delayAdjustedStart, delayAdjustedEnd,
      List.filterMap_cons, List.filter_cons]
  have hne : tsSlice (netSequestration4 fixtureCtxDelay)
      (delayAdjustedStart fixtureCtxDelay) (delayAdjustedEnd fixtureCtxDelay) ≠ [] := by
    intro hcontra
    rw [hcontra] at hv
    simp at hv
  have h := claim_C6_delay_regrowth_shift fixtureCtxDelay hne
  constructor
  · obtain ⟨m, hm, hmem, hle⟩ := h.2.1
    rw [hv] at hmem hle
    have h3 : (3 : ℚ) ≤ m := hle 3 (by norm_num)
    have hm3 : m = 3 := by
      simp only [List.mem_cons, List.not_mem_nil, or_false] at hmem
      rcases hmem with rfl | rfl | rfl
      · norm_num at h3
      · norm_num at h3
      · rfl
    rw [hm3] at hm
    exact hm
  · rw [h.2.2.1]
    norm_num [netSequestration4, fixtureCtxDelay, fixtureCtx, fixturePds, fixtureRef,
      emptyScenario, tsSub, tsLookup, delayAdjustedEnd, List.filterMap_cons]

/-- The abatement cost as the spec words it ("same net-cashflow construction
as above", i.e. as `get_lifetime_cashflow_npv_all`): the clipped net first
cost and the operating term
`(REF.lifetimeOperatingSavings − PDS.lifetimeOperatingSavings) × (1 +
disturbance_rate)` added year-aligned with a missing key treated as `0`
(`fill_value = 0` alignment), positionally discounted, summed over
`[start_year, end_year]`, negated, divided by the total CO2 sequestered and
by 1000.  The code's `get_abatement_cost` instead uses
`.add(...).fillna(0.0)`; the two constructions can differ only at a year
present in exactly one operand, and such years fall outside the summed range
whenever both operands cover their documented ranges. -/
def abatementCostClaimed (c : OceanCtx) : ℚ :=
  let total_co2_reduction := get_total_co2_seq c
  let pds_fc := c.pds_scenario.get_annual_world_first_cost
  let ref_fc := c.ref_scenario.get_annual_world_first_cost
  let net_fc := tsSub ref_fc pds_fc
  let fc_clipped := tsSlice net_fc (c.start_year - 1) c.end_year
  let pds_op_cost := c.pds_scenario.get_lifetime_operating_savings c.end_year
  let ref_op_cost := c.ref_scenario.get_lifetime_operating_savings c.end_year
  let net_op_cost := tsScale (1 + c.disturbance_rate) (tsSub ref_op_cost pds_op_cost)
  let net_cash_flow := tsAddFill fc_clipped net_op_cost
  let npv := tsDiscountPositional c.npv_discount_rate net_cash_flow
  let npv_summed := tsSum (tsSlice npv c.start_year c.end_year)
  let result := -1 * npv_summed / total_co2_reduction
  result / 1000

/-- The `.add(...).fillna(0)` and `.add(..., fill_value = 0)` alignments give
the same positionally-discounted sliced sum when both operands have a row for
every year of the summed range: the two combined flows share the index (and
hence row positions), and a row where they can differ lies outside the
slice. -/
theorem discounted_slice_sum_congr (r : ℚ) (lo hi : Int) (A B : TS)
    (hcov : ∀ y : Int, lo ≤ y → y ≤ hi → y ∈ tsKeys A ∧ y ∈ tsKeys B) :
    tsSum (tsSlice (tsDiscountPositional r (tsAddThenFillZero A B)) lo hi)
      = tsSum (tsSlice (tsDiscountPositional r (tsAddFill A B)) lo hi) := by
  rw [tsSum_tsSlice_eq_rangeSum, tsSum_tsSlice_eq_rangeSum,
      length_tsDiscountPositional, length_tsDiscountPositional]
  have hlenA : (tsAddThenFillZero A B).length
      = (mergeKeys (tsKeys A) (tsKeys B)).length := by
    rw [tsAddThenFillZero, List.length_map]
  have hlenB : (tsAddFill A B).length = (mergeKeys (tsKeys A) (tsKeys B)).length := by
    rw [tsAddFill, List.length_map]
  rw [hlenA, hlenB]
  apply Finset.sum_congr rfl
  intro i hi2
  rw [Finset.mem_range] at hi2
  have hiA : i < (tsAddThenFillZero A B).length := by rw [hlenA]; exact hi2
  have hiB : i < (tsAddFill A B).length := by rw [hlenB]; exact hi2
  rw [getD_tsDiscountPositional _ _ i hiA, getD_tsDiscountPositional _ _ i hiB]
  have hgA := getD_map_key
    (fun y => match tsLookup A y, tsLookup B y with
      | some va, some vb => va + vb
      | _, _ => 0)
    (mergeKeys (tsKeys A) (tsKeys B)) i hi2
  have hgB := getD_map_key (fun y => tsGetD A y + tsGetD B y)
    (mergeKeys (tsKeys A) (tsKeys B)) i hi2
  rw [show (tsAddThenFillZero A B).getD i (0, 0)
        = ((mergeKeys (tsKeys A) (tsKeys B)).getD i 0,
           match tsLookup A ((mergeKeys (tsKeys A) (tsKeys B)).getD i 0),
                 tsLookup B ((mergeKeys (tsKeys A) (tsKeys B)).getD i 0) with
           | some va, some vb => va + vb
           | _, _ => 0) from hgA,
      show (tsAddFill A B).getD i (0, 0)
        = ((mergeKeys (tsKeys A) (tsKeys B)).getD i 0,
           tsGetD A ((mergeKeys (tsKeys A) (tsKeys B)).getD i 0)
             + tsGetD B ((mergeKeys (tsKeys A) (tsKeys B)).getD i 0)) from hgB]
  by_cases hin : lo ≤ (mergeKeys (tsKeys A) (tsKeys B)).getD i 0
      ∧ (mergeKeys (tsKeys A) (tsKeys B)).getD i 0 ≤ hi
  · rw [if_pos hin, if_pos hin]
    obtain ⟨hka, hkb⟩ := hcov _ hin.1 hin.2
    obtain ⟨va, hva⟩ := tsLookup_exists_of_mem hka
    obtain ⟨vb, hvb⟩ := tsLookup_exists_of_mem hkb
    rw [hva, hvb]
    rw [tsGetD, tsGetD, hva, hvb]
    rfl
  · rw [if_neg hin, if_neg hin]

/-- Membership in the keys of a slice. -/
theorem mem_tsKeys_tsSlice {s : TS} {a b y : Int} :
    y ∈ tsKeys (tsSlice s a b) ↔ y ∈ tsKeys s ∧ a ≤ y ∧ y ≤ b := by
  induction s with
  | nil => simp [tsSlice, tsKeys]
  | cons p rest ih =>
    rw [tsSlice_cons]
    by_cases h : a ≤ p.1 ∧ p.1 ≤ b
    · rw [if_pos h, tsKeys_cons, tsKeys_cons, List.mem_cons, List.mem_cons, ih]
      constructor
      · rintro (rfl | ⟨hy, hb⟩)
        · exact ⟨Or.inl rfl, h.1, h.2⟩
        · exact ⟨Or.inr hy, hb⟩
      · rintro ⟨rfl | hy, hb⟩
        · exact Or.inl rfl
        · exact Or.inr ⟨hy, hb⟩
    · rw [if_neg h, tsKeys_cons, List.mem_cons, ih]
      constructor
      · rintro ⟨hy, hb⟩
        exact ⟨Or.inr hy, hb⟩
      · rintro ⟨rfl | hy, hb⟩
        · exact absurd ⟨hb.1, hb.2⟩ h
        · exact ⟨hy, hb⟩

/-- **C1**: `get_abatement_cost` builds the net cash flow by the same
construction as the all-years NPV — net first cost `REF − PDS` clipped to
`[start_year−1, end_year]`, added year-aligned (missing keys treated as 0) to
`(REF.lifetimeOperatingSavings − PDS.lifetimeOperatingSavings) ×
(1+disturbance_rate)` — applies the positional discount factor
`(1/(1+npv_discount_rate))^(row+1)`, sums over `[start_year, end_year]`,
negates, divides by `get_total_co2_seq` and by 1000: under the data-model
coverage invariants the code equals `abatementCostClaimed`, the spec-worded
construction. -/
theorem claim_C1_abatement_cost (c : OceanCtx)
    (hfc : coversRange (tsSub c.ref_scenario.get_annual_world_first_cost
        c.pds_scenario.get_annual_world_first_cost) (c.start_year - 1) c.end_year)
    (hop : coversRange (tsSub (c.ref_scenario.get_lifetime_operating_savings c.end_year)
        (c.pds_scenario.get_lifetime_operating_savings c.end_year))
        c.start_year c.end_year) :
    get_abatement_cost c = abatementCostClaimed c := by
  have hcov : ∀ y : Int, c.start_year ≤ y → y ≤ c.end_year →
      y ∈ tsKeys (tsSlice (tsSub c.ref_scenario.get_annual_world_first_cost
          c.pds_scenario.get_annual_world_first_cost) (c.start_year - 1) c.end_year)
        ∧ y ∈ tsKeys (tsScale (1 + c.disturbance_rate)
          (tsSub (c.ref_scenario.get_lifetime_operating_savings c.end_year)
            (c.pds_scenario.get_lifetime_operating_savings c.end_year))) := by
    intro y h1 h2
    constructor
    · rw [mem_tsKeys_tsSlice]
      exact ⟨hfc y (mem_yearRange.mpr ⟨by omega, h2⟩), by omega, h2⟩
    · rw [tsKeys_tsScale]
      exact hop y (mem_yearRange.mpr ⟨h1, h2⟩)
  show (-1 * tsSum (tsSlice (tsDiscountPositional c.npv_discount_rate
      (tsAddThenFillZero
        (tsSlice (tsSub c.ref_scenario.get_annual_world_first_cost
          c.pds_scenario.get_annual_world_first_cost) (c.start_year - 1) c.end_year)
        (tsScale (1 + c.disturbance_rate)
          (tsSub (c.ref_scenario.get_lifetime_operating_savings c.end_year)
            (c.pds_scenario.get_lifetime_operating_savings c.end_year)))))
      c.start_year c.end_year) / get_total_co2_seq c) / 1000
    = (-1 * tsSum (tsSlice (tsDiscountPositional c.npv_discount_rate
      (tsAddFill
        (tsSlice (tsSub c.ref_scenario.get_annual_world_first_cost
          c.pds_scenario.get_annual_world_first_cost) (c.start_year - 1) c.end_year)
        (tsScale (1 + c.disturbance_rate)
          (tsSub (c.ref_scenario.get_lifetime_operating_savings c.end_year)
            (c.pds_scenario.get_lifetime_operating_savings c.end_year)))))
      c.start_year c.end_year) / get_total_co2_seq c) / 1000
  rw [discounted_slice_sum_congr c.npv_discount_rate c.start_year c.end_year _ _ hcov]

/-- Witness for C1 on the fixture context. -/
theorem claim_C1_witness :
    get_abatement_cost fixtureCtx = abatementCostClaimed fixtureCtx
      ∧ get_abatement_cost fixtureCtx = 26/225 := by
  refine ⟨claim_C1_abatement_cost fixtureCtx (by decide) (by decide), ?_⟩
  norm_num [get_abatement_cost, abatementNetCashFlow, get_total_co2_seq, fixtureCtx,
    fixturePds, fixtureRef, emptyScenario, tsSub, tsSlice, tsScale, tsAddThenFillZero,
    tsGetD, tsLookup, tsKeys, mergeKeys, insertKey, tsDiscountPositional, tsSum,
    List.enum, List.enumFrom, List.filterMap_cons, List.filter_cons]
